import Mathlib

/-!  Verification model of analysis.py, a linear batch script that loads a
CSV of AI hiring rates by country, cleans percentage strings into floats,
groups rows into pre/during/post COVID calendar periods by the year of the
Date column, computes per-country means and percentage changes, global
summary metrics, a two-sample t-test, renders charts and prints a report.

The script computes in float64.  Finite doubles are embedded as rationals
(exact for every operation the script performs except the square root
inside the standard deviation, which no claim concerns; its argument, the
variance, is kept instead).  The two infinities and NaN are explicit
constructors, because the pandas aggregations skip NaN but not infinity
and several claims hinge on that difference.  -/

/-- Float value domain: finite rationals plus the two infinities and NaN. -/
inductive F where
  | fin (q : ℚ)
  | inf
  | ninf
  | nan
deriving DecidableEq, Repr, Inhabited

/-- Float negation. -/
def F.neg : F → F
  | .fin q => .fin (-q)
  | .inf => .ninf
  | .ninf => .inf
  | .nan => .nan

/-- Float addition: NaN absorbs, opposite infinities give NaN. -/
def F.add : F → F → F
  | .nan, _ => .nan
  | _, .nan => .nan
  | .inf, .ninf => .nan
  | .ninf, .inf => .nan
  | .inf, _ => .inf
  | _, .inf => .inf
  | .ninf, _ => .ninf
  | _, .ninf => .ninf
  | .fin a, .fin b => .fin (a + b)

/-- Float subtraction. -/
def F.sub (a b : F) : F := F.add a (F.neg b)

/-- Float multiplication: zero times infinity is NaN. -/
def F.mul : F → F → F
  | .nan, _ => .nan
  | _, .nan => .nan
  | .fin a, .fin b => .fin (a * b)
  | .inf, .inf => .inf
  | .inf, .ninf => .ninf
  | .ninf, .inf => .ninf
  | .ninf, .ninf => .inf
  | .inf, .fin b => if b = 0 then .nan else if 0 < b then .inf else .ninf
  | .fin a, .inf => if a = 0 then .nan else if 0 < a then .inf else .ninf
  | .ninf, .fin b => if b = 0 then .nan else if 0 < b then .ninf else .inf
  | .fin a, .ninf => if a = 0 then .nan else if 0 < a then .ninf else .inf

/-- Float division with numpy float64 semantics: a nonzero finite number
divided by zero is a signed infinity, zero by zero is NaN. -/
def F.div : F → F → F
  | .nan, _ => .nan
  | _, .nan => .nan
  | .inf, .inf => .nan
  | .inf, .ninf => .nan
  | .ninf, .inf => .nan
  | .ninf, .ninf => .nan
  | .inf, .fin b => if b < 0 then .ninf else .inf
  | .ninf, .fin b => if b < 0 then .inf else .ninf
  | .fin _, .inf => .fin 0
  | .fin _, .ninf => .fin 0
  | .fin a, .fin b =>
      if b = 0 then (if a = 0 then .nan else if 0 < a then .inf else .ninf)
      else .fin (a / b)

/-- IEEE comparison: any comparison against NaN is false. -/
def F.le : F → F → Bool
  | .nan, _ => false
  | _, .nan => false
  | .ninf, _ => true
  | _, .ninf => false
  | _, .inf => true
  | .inf, _ => false
  | .fin a, .fin b => decide (a ≤ b)

/-- Total comparison used for sorting and the skipna order statistics:
ninf below finite below inf, NaN greatest.  On NaN-free values it agrees
with the IEEE order, and the aggregations below only sort NaN-free lists. -/
def F.ble : F → F → Bool
  | .nan, .nan => true
  | .nan, _ => false
  | _, .nan => true
  | .ninf, _ => true
  | _, .ninf => false
  | _, .inf => true
  | .inf, _ => false
  | .fin a, .fin b => decide (a ≤ b)

/-- Propositional form of the sorting order. -/
def F.Le (a b : F) : Prop := F.ble a b = true

instance : DecidableRel F.Le := fun a b => inferInstanceAs (Decidable (_ = true))

instance : IsTotal F F.Le :=
  ⟨by intro a b; cases a <;> cases b <;> simp [F.Le, F.ble] <;> exact le_total _ _⟩

instance : IsTrans F F.Le :=
  ⟨by
    intro a b c hab hbc
    cases a <;> cases b <;> cases c <;> simp_all [F.Le, F.ble]
    exact le_trans hab hbc⟩

/-- Values a CSV cell holds after pandas read_csv: a string, or a float
(NaN for an empty cell). -/
inductive PyValue where
  | pstr (s : String)
  | pfloat (x : F)
deriving DecidableEq, Repr

/-- Decimal digits to a natural number. -/
def digitsToNat (l : List Char) : Nat :=
  l.foldl (fun n c => 10 * n + (c.toNat - 48)) 0

/-- Model of the Python float conversion on decimal literals: optional
surrounding whitespace, optional sign, integer digits, optional fractional
part.  none models a ValueError. -/
def parseFloat (s : String) : Option ℚ :=
  let cs := s.trim.toList
  let sd : ℚ × List Char :=
    match cs with
    | '-' :: t => (-1, t)
    | '+' :: t => (1, t)
    | t => (1, t)
  let ip := sd.2.takeWhile Char.isDigit
  let rest := sd.2.dropWhile Char.isDigit
  match rest with
  | [] => if ip.isEmpty then none else some (sd.1 * (digitsToNat ip : ℚ))
  | '.' :: fp =>
      if fp.all Char.isDigit && !(ip.isEmpty && fp.isEmpty) then
        some (sd.1 * ((digitsToNat ip : ℚ) + (digitsToNat fp : ℚ) / (10 ^ fp.length)))
      else none
  | _ => none

/-- Model of float(value): strings are parsed, floats pass through
(float of NaN is NaN, not an error); a failed parse raises ValueError. -/
def pyFloat : PyValue → Except String F
  | .pstr s =>
      match parseFloat s with
      | some q => .ok (F.fin q)
      | none => .error ("ValueError")
  | .pfloat x => .ok x

/-- value.replace of the percent sign with the empty string: removes every
percent character. -/
def stripPct (s : String) : String :=
  String.mk (s.toList.filter (fun c => c ≠ '%'))

/-- clean_percentage from analysis.py lines 8-15: a percent-bearing string
is parsed after removing the percent signs, anything else goes through
float, and the bare except turns any conversion error into NaN. -/
def clean_percentage (value : PyValue) : F :=
  let body : Except String F :=
    match value with
    | .pstr s =>
        if s.contains '%' then pyFloat (.pstr (stripPct s)) else pyFloat (.pstr s)
    | .pfloat x => pyFloat (.pfloat x)
  match body with
  | .ok x => x
  | .error _ => F.nan

/-- A dataframe row after cleaning and date parsing: the calendar year
to_datetime extracts from the Date cell (column df.Year), and the cleaned
country-column values in CSV order. -/
structure CleanRow where
  year : Int
  vals : List F
deriving DecidableEq, Repr, Inhabited

/-- A raw CSV row: the year of its Date cell and the raw country cells. -/
structure RawRow where
  dateYear : Int
  vals : List PyValue
deriving DecidableEq, Repr, Inhabited

/-- The CSV layout the script assumes: the Date column first, then one
column per country. -/
structure RawTable where
  countries : List String
  rows : List RawRow
deriving DecidableEq, Repr, Inhabited

/-- Cleaning one row: every column except Date goes through
clean_percentage; the Date column is parsed to a datetime whose year
becomes the Year column. -/
def cleanRow (r : RawRow) : CleanRow :=
  ⟨r.dateYear, r.vals.map clean_percentage⟩

/-- The cleaned dataframe rows (analysis.py lines 25-39). -/
def cleanTable (t : RawTable) : List CleanRow :=
  t.rows.map cleanRow

/-- Rows whose Year isin [2018, 2019] (analysis.py line 44). -/
def preCovid (rows : List CleanRow) : List CleanRow :=
  rows.filter (fun r => decide (r.year ∈ ([2018, 2019] : List Int)))

/-- Rows whose Year isin [2020, 2021, 2022] (analysis.py line 46). -/
def duringCovid (rows : List CleanRow) : List CleanRow :=
  rows.filter (fun r => decide (r.year ∈ ([2020, 2021, 2022] : List Int)))

/-- Rows whose Year equals 2023 (analysis.py line 48). -/
def postCovid (rows : List CleanRow) : List CleanRow :=
  rows.filter (fun r => decide (r.year = 2023))

/-- The non-NaN entries of a list, the values every skipna pandas
aggregation works on. -/
def nonNan (xs : List F) : List F :=
  xs.filter (fun x => decide (x ≠ F.nan))

/-- Float sum of a list. -/
def sumF (xs : List F) : F := xs.foldl F.add (F.fin 0)

/-- pandas Series.mean: drop NaN, NaN on an empty rest, else sum over
count. -/
def nanmeanF (xs : List F) : F :=
  let ys := nonNan xs
  if ys.length = 0 then F.nan else F.div (sumF ys) (F.fin (ys.length : ℚ))

/-- Ascending sort in the total order (only ever applied to NaN-free
lists). -/
def sortF (xs : List F) : List F := List.insertionSort F.Le xs

/-- pandas Series.min: smallest non-NaN value, NaN when there is none. -/
def nanminF (xs : List F) : F := (sortF (nonNan xs)).headD F.nan

/-- pandas Series.max: largest non-NaN value, NaN when there is none. -/
def nanmaxF (xs : List F) : F := ((sortF (nonNan xs)).getLast?).getD F.nan

/-- pandas Series.median: drop NaN, sort, middle element for an odd count
and the mean of the two middle elements for an even count. -/
def nanmedianF (xs : List F) : F :=
  let ys := sortF (nonNan xs)
  let n := ys.length
  if n = 0 then F.nan
  else if n % 2 = 1 then ys.getD (n / 2) F.nan
  else F.div (F.add (ys.getD (n / 2 - 1) F.nan) (ys.getD (n / 2) F.nan)) (F.fin 2)

/-- Square of pandas Series.std (sample variance, ddof 1): the square root
is irrational, so the variance is recorded; NaN below two non-NaN values. -/
def nanvarF (xs : List F) : F :=
  let ys := nonNan xs
  if ys.length < 2 then F.nan
  else
    let m := F.div (sumF ys) (F.fin (ys.length : ℚ))
    F.div (sumF (ys.map (fun x => F.mul (F.sub x m) (F.sub x m))))
      (F.fin ((ys.length - 1 : Nat) : ℚ))

/-- pandas Series.idxmin: position of the first occurrence of the minimum
among non-NaN values; none models the ValueError raised when every value
is NaN. -/
def idxminF (xs : List F) : Option Nat :=
  if nanminF xs = F.nan then none
  else some (xs.findIdx (fun x => decide (x = nanminF xs)))

/-- pandas Series.idxmax, likewise. -/
def idxmaxF (xs : List F) : Option Nat :=
  if nanmaxF xs = F.nan then none
  else some (xs.findIdx (fun x => decide (x = nanmaxF xs)))

/-- One cell of the widened dataframe at t-test time: the Date column, the
appended Year column, or a country value.  The Date cell records the year
of the datetime it holds, the only component the script ever reads. -/
inductive Cell where
  | date (y : Int)
  | year (y : Int)
  | val (x : F)
deriving DecidableEq, Repr

/-- A full dataframe row at t-test time: Date first, country values, then
the Year column appended by line 39. -/
def fullRowCells (r : CleanRow) : List Cell :=
  Cell.date r.year :: (r.vals.map Cell.val ++ [Cell.year r.year])

/-- The iloc column slice 1:-1, dropping the first and the last column. -/
def ilocMid (cells : List Cell) : List Cell := (cells.drop 1).dropLast

/-- values.flatten() of the sliced frame: row-major concatenation
(analysis.py lines 89-90). -/
def tSample (rows : List CleanRow) : List Cell :=
  (rows.map (fun r => ilocMid (fullRowCells r))).flatten

/-- Per-country record built at analysis.py lines 65-70. -/
structure CountryResult where
  pre_covid_mean : F
  during_covid_mean : F
  post_covid_mean : F
  pct_change_during_covid : F
deriving DecidableEq, Repr, Inhabited

/-- Column i of a list of rows (missing cells read as NaN; CSV tables are
rectangular). -/
def colVals (rows : List CleanRow) (i : Nat) : List F :=
  rows.map (fun r => r.vals.getD i F.nan)

/-- The loop body of analysis.py lines 57-70: the three period means of
one column and the pre-to-during percentage change. -/
def mkCountryResult (preCol durCol postCol : List F) : CountryResult :=
  let pre_mean := nanmeanF preCol
  let during_mean := nanmeanF durCol
  let post_mean := nanmeanF postCol
  { pre_covid_mean := pre_mean
    during_covid_mean := during_mean
    post_covid_mean := post_mean
    pct_change_during_covid :=
      F.mul (F.div (F.sub during_mean pre_mean) pre_mean) (F.fin 100) }

/-- The results dict keyed by country (analysis.py lines 51-73): one entry
per non-Date, non-Year column, in column order. -/
def countryResults (t : RawTable) : List (String × CountryResult) :=
  (List.range t.countries.length).map (fun i =>
    (t.countries.getD i (""),
     mkCountryResult (colVals (preCovid (cleanTable t)) i)
       (colVals (duringCovid (cleanTable t)) i)
       (colVals (postCovid (cleanTable t)) i)))

/-- The pct_change_during_covid column of results_df. -/
def pctList (t : RawTable) : List F :=
  (countryResults t).map (fun pr => pr.2.pct_change_during_covid)

/-- The pair returned by a successful analyze_covid_impact: results_df and
global_metrics.  The t-test inputs are recorded as the cell lists handed
to scipy.stats.ttest_ind; the statistic itself is computed by scipy, not
by this script. -/
structure Output where
  results : List (String × CountryResult)
  mean_pct_change : F
  median_pct_change : F
  var_pct_change : F
  most_impacted_country : String
  most_impacted_value : F
  least_impacted_country : String
  least_impacted_value : F
  t_sample_pre : List Cell
  t_sample_during : List Cell
deriving DecidableEq, Repr, Inhabited

/-- The body of analyze_covid_impact after the file check (analysis.py
lines 23-96).  The error branch models the ValueError that Series.idxmin
raises when the pct column has no non-NaN entry (and the KeyError on an
empty results frame), the one failure point of the body on an in-memory
table; it is raised before the t-test line runs. -/
def analyze_df (t : RawTable) : Except String Output :=
  match idxminF (pctList t), idxmaxF (pctList t) with
  | some imin, some imax =>
      .ok { results := countryResults t
            mean_pct_change := nanmeanF (pctList t)
            median_pct_change := nanmedianF (pctList t)
            var_pct_change := nanvarF (pctList t)
            most_impacted_country := t.countries.getD imin ("")
            most_impacted_value := nanminF (pctList t)
            least_impacted_country := t.countries.getD imax ("")
            least_impacted_value := nanmaxF (pctList t)
            t_sample_pre := tSample (preCovid (cleanTable t))
            t_sample_during := tSample (duringCovid (cleanTable t)) }
  | _, _ => .error ("ValueError: attempt to get argmin of an empty sequence")

/-- The whole try block of analyze_covid_impact: a filesystem is a map
from paths to tables; a missing path raises FileNotFoundError (line 21). -/
def analyze_body (fs : String → Option RawTable) (file_path : String) :
    Except String Output :=
  match fs file_path with
  | none => .error ("The file " ++ file_path ++ " was not found")
  | some t => analyze_df t

/-- analyze_covid_impact (analysis.py lines 17-100): the broad except
turns every body error into the returned pair None, None, modelled as
none. -/
def analyze_covid_impact (fs : String → Option RawTable) (file_path : String) :
    Option Output :=
  match analyze_body fs file_path with
  | .ok o => some o
  | .error _ => none

/-- The pipeline stages of the spec: load CSV, clean, aggregate,
statistical test, plot, print. -/
inductive Stage where
  | load
  | clean
  | aggregate
  | test
  | plot
  | report
deriving DecidableEq, Repr, BEq

/-- The fixed stage order of the script. -/
def stageOrder : List Stage :=
  [Stage.load, Stage.clean, Stage.aggregate, Stage.test, Stage.plot, Stage.report]

/-- Stages analyze_covid_impact completes: none on a missing file, loading
and cleaning only when the aggregation dies at idxmin, all four otherwise. -/
def analyze_stages (fs : String → Option RawTable) (file_path : String) :
    List Stage :=
  match fs file_path with
  | none => []
  | some t =>
      match analyze_df t with
      | .ok _ => [Stage.load, Stage.clean, Stage.aggregate, Stage.test]
      | .error _ => [Stage.load, Stage.clean]

/-- create_visualizations (analysis.py lines 102-188), abstracted to the
chart files it saves.  It has no None guard: with a failed analysis the
first dereference, results_df.sort_values at line 111, raises
AttributeError. -/
def create_visualizations (res : Option Output) : Except String (List String) :=
  match res with
  | none => .error ("AttributeError: NoneType object has no attribute sort_values")
  | some _ =>
      .ok ["impact_by_country.png", "period_distribution.png",
           "top_10_impacted.png", "recovery_analysis.png"]

/-- print_results (analysis.py lines 191-212), abstracted to its printed
section headers: it returns at once, printing nothing, when the analysis
returned None. -/
def print_results (res : Option Output) : List String :=
  match res with
  | none => []
  | some _ =>
      ["=== Global Impact Summary ===",
       "=== Most and Least Impacted Countries ===",
       "=== Statistical Significance ===",
       "=== Top 5 Most Negatively Impacted Countries ===",
       "=== Top 5 Least Impacted/Positive Growth Countries ==="]

/-- The main block (analysis.py lines 214-226): analyze, then visualize,
then print.  An exception in create_visualizations is uncaught, so the
run ends in an error and print_results is never reached. -/
def main_run (fs : String → Option RawTable) (file_path : String) :
    Except String (List String) :=
  match create_visualizations (analyze_covid_impact fs file_path) with
  | .error e => .error e
  | .ok files => .ok (files ++ print_results (analyze_covid_impact fs file_path))

/-- The stages a whole run completes. -/
def main_stages (fs : String → Option RawTable) (file_path : String) :
    List Stage :=
  analyze_stages fs file_path ++
    (match create_visualizations (analyze_covid_impact fs file_path) with
     | .error _ => []
     | .ok _ => [Stage.plot, Stage.report])

/-- Mean of column i over the rows whose year is 2018 or 2019, phrased as
the claims phrase it. -/
def specPreMean (t : RawTable) (i : Nat) : F :=
  nanmeanF (((cleanTable t).filter (fun r => decide (r.year = 2018 ∨ r.year = 2019))).map
    (fun r => r.vals.getD i F.nan))

/-- Mean of column i over the rows whose year is 2020, 2021 or 2022. -/
def specDuringMean (t : RawTable) (i : Nat) : F :=
  nanmeanF (((cleanTable t).filter
      (fun r => decide (r.year = 2020 ∨ r.year = 2021 ∨ r.year = 2022))).map
    (fun r => r.vals.getD i F.nan))

/-- Mean of column i over the rows whose year is 2023. -/
def specPostMean (t : RawTable) (i : Nat) : F :=
  nanmeanF (((cleanTable t).filter (fun r => decide (r.year = 2023))).map
    (fun r => r.vals.getD i F.nan))

deriving instance DecidableEq for Except

/-- The IEEE order is reflexive away from NaN. -/
theorem F_le_refl (a : F) (h : a ≠ F.nan) : F.le a a = true := by
  cases a <;> simp_all [F.le]

/-- The sorting order is reflexive. -/
theorem F_ble_refl (a : F) : F.ble a a = true := by
  cases a <;> simp [F.ble]

/-- On NaN-free values the sorting order is the IEEE order. -/
theorem F_le_of_ble {a b : F} (ha : a ≠ F.nan) (hb : b ≠ F.nan)
    (h : F.ble a b = true) : F.le a b = true := by
  cases a <;> cases b <;> simp_all [F.le, F.ble]

/-- Membership in the non-NaN sublist. -/
theorem mem_nonNan {x : F} {l : List F} : x ∈ nonNan l ↔ x ∈ l ∧ x ≠ F.nan := by
  simp [nonNan, List.mem_filter]

/-- Sorting permutes. -/
theorem sortF_perm (l : List F) : List.Perm (sortF l) l := List.perm_insertionSort F.Le l

/-- Sorting sorts. -/
theorem sortF_sorted (l : List F) : List.Sorted F.Le (sortF l) :=
  List.sorted_insertionSort F.Le l

/-- Sorting preserves membership. -/
theorem mem_sortF {x : F} {l : List F} : x ∈ sortF l ↔ x ∈ l :=
  (sortF_perm l).mem_iff

/-- Series.min of a list with at least one non-NaN member: the result is a
member, is not NaN, and is below every non-NaN member in the IEEE order. -/
theorem nanminF_spec {l : List F} {x : F} (hx : x ∈ l) (hnx : x ≠ F.nan) :
    nanminF l ∈ l ∧ nanminF l ≠ F.nan ∧ F.le (nanminF l) x = true := by
  have hxs : x ∈ sortF (nonNan l) := mem_sortF.mpr (mem_nonNan.mpr ⟨hx, hnx⟩)
  cases hs : sortF (nonNan l) with
  | nil => rw [hs] at hxs; cases hxs
  | cons c t =>
      have hmin : nanminF l = c := by simp [nanminF, hs]
      have hcmem : c ∈ nonNan l := mem_sortF.mp (hs ▸ List.mem_cons_self c t)
      have hcl : c ∈ l ∧ c ≠ F.nan := mem_nonNan.mp hcmem
      have hsorted : List.Sorted F.Le (c :: t) := hs ▸ sortF_sorted (nonNan l)
      rw [hs] at hxs
      rcases List.mem_cons.mp hxs with rfl | hxt
      · exact ⟨hmin ▸ hcl.1, hmin ▸ hcl.2, hmin ▸ F_le_refl x hnx⟩
      · have : F.Le c x := List.rel_of_sorted_cons hsorted x hxt
        exact ⟨hmin ▸ hcl.1, hmin ▸ hcl.2, hmin ▸ F_le_of_ble hcl.2 hnx this⟩

/-- In a sorted list every member is below the last element. -/
theorem sorted_le_getLast : ∀ {l : List F}, List.Sorted F.Le l →
    ∀ x ∈ l, F.Le x ((l.getLast?).getD F.nan) := by
  intro l
  induction l with
  | nil => intro _ x hx; cases hx
  | cons c t ih =>
      intro hsorted x hx
      cases t with
      | nil =>
          rcases List.mem_cons.mp hx with rfl | h
          · simp [F.Le, F_ble_refl]
          · cases h
      | cons d t2 =>
          have htail : List.Sorted F.Le (d :: t2) := hsorted.of_cons
          rw [List.getLast?_cons_cons]
          rcases List.mem_cons.mp hx with rfl | hxt
          · cases hlast : (d :: t2).getLast? with
            | none => simp at hlast
            | some y =>
                have hy : y ∈ d :: t2 := List.mem_of_getLast?_eq_some hlast
                have := List.rel_of_sorted_cons hsorted y hy
                simpa [hlast] using this
          · exact ih htail x hxt

/-- Series.max of a list with at least one non-NaN member. -/
theorem nanmaxF_spec {l : List F} {x : F} (hx : x ∈ l) (hnx : x ≠ F.nan) :
    nanmaxF l ∈ l ∧ nanmaxF l ≠ F.nan ∧ F.le x (nanmaxF l) = true := by
  have hxs : x ∈ sortF (nonNan l) := mem_sortF.mpr (mem_nonNan.mpr ⟨hx, hnx⟩)
  have hne : sortF (nonNan l) ≠ [] := by intro h; rw [h] at hxs; cases hxs
  cases hlast : (sortF (nonNan l)).getLast? with
  | none => exact absurd (List.getLast?_eq_none_iff.mp hlast) hne
  | some y =>
      have hymem : y ∈ sortF (nonNan l) := List.mem_of_getLast?_eq_some hlast
      have hyl : y ∈ l ∧ y ≠ F.nan := mem_nonNan.mp (mem_sortF.mp hymem)
      have hmax : nanmaxF l = y := by simp [nanmaxF, hlast]
      have hle : F.Le x ((sortF (nonNan l)).getLast?.getD F.nan) :=
        sorted_le_getLast (sortF_sorted (nonNan l)) x hxs
      rw [hlast] at hle
      exact ⟨hmax ▸ hyl.1, hmax ▸ hyl.2, hmax ▸ F_le_of_ble hnx hyl.2 hle⟩

/-- findIdx of a satisfiable predicate lands in range on a satisfying
element. -/
theorem findIdx_spec {p : F → Bool} : ∀ {l : List F} {x : F}, x ∈ l → p x = true →
    l.findIdx p < l.length ∧ p (l.getD (l.findIdx p) F.nan) = true := by
  intro l
  induction l with
  | nil => intro x hx; cases hx
  | cons a t ih =>
      intro x hx hp
      by_cases hpa : p a = true
      · simp [List.findIdx_cons, hpa]
      · have hxt : x ∈ t := by
          rcases List.mem_cons.mp hx with rfl | h
          · exact absurd hp hpa
          · exact h
        rcases ih hxt hp with ⟨h1, h2⟩
        have hpa' : p a = false := by simpa using hpa
        refine ⟨?_, ?_⟩
        · simp only [List.findIdx_cons, hpa', cond_false, List.length_cons]
          omega
        · simpa only [List.findIdx_cons, hpa', cond_false, List.getD_cons_succ] using h2

/-- Once a fold accumulator is infinite or NaN it stays so. -/
theorem foldl_add_absorb : ∀ (l : List F) (acc : F),
    (acc = F.inf ∨ acc = F.nan) →
    (l.foldl F.add acc = F.inf ∨ l.foldl F.add acc = F.nan) := by
  intro l
  induction l with
  | nil => intro acc h; simpa using h
  | cons x t ih =>
      intro acc h
      apply ih
      rcases h with rfl | rfl <;> cases x <;> simp [F.add]

/-- A list containing positive infinity sums to infinity or NaN. -/
theorem sumF_inf_mem {l : List F} (h : F.inf ∈ l) :
    sumF l = F.inf ∨ sumF l = F.nan := by
  obtain ⟨s, t, rfl⟩ := List.append_of_mem h
  unfold sumF
  rw [List.foldl_append, List.foldl_cons]
  apply foldl_add_absorb
  cases hacc : s.foldl F.add (F.fin 0) <;> simp [F.add]

/-- A mean over values containing positive infinity is infinite or NaN:
the skipna mean does not skip infinities. -/
theorem nanmeanF_inf {l : List F} (h : F.inf ∈ l) :
    nanmeanF l = F.inf ∨ nanmeanF l = F.nan := by
  have hm : F.inf ∈ nonNan l := mem_nonNan.mpr ⟨h, by simp⟩
  have hlen : nonNan l ≠ [] := by intro h0; rw [h0] at hm; cases hm
  have hlen' : (nonNan l).length ≠ 0 := by
    simpa [List.length_eq_zero] using hlen
  unfold nanmeanF
  simp only [hlen', if_false]
  have hpos : ¬(((nonNan l).length : ℚ) < 0) := not_lt.mpr (by positivity)
  rcases sumF_inf_mem hm with hs | hs <;> rw [hs] <;> simp [F.div, hpos]

/-- The greatest non-NaN value of a list containing positive infinity is
positive infinity: the skipna max does not skip infinities. -/
theorem nanmaxF_inf {l : List F} (h : F.inf ∈ l) : nanmaxF l = F.inf := by
  rcases nanmaxF_spec h (by simp) with ⟨_, hnn, hle⟩
  cases hmax : nanmaxF l <;> rw [hmax] at hle hnn <;> simp_all [F.le]

/-- Removing a NaN entry leaves the non-NaN sublist unchanged. -/
theorem nonNan_eraseIdx : ∀ (l : List F) (i : Nat), l.getD i F.nan = F.nan →
    nonNan (l.eraseIdx i) = nonNan l := by
  intro l
  induction l with
  | nil => intro i _; simp
  | cons a t ih =>
      intro i hi
      cases i with
      | zero =>
          simp only [List.getD_cons_zero] at hi
          subst hi
          simp [List.eraseIdx, nonNan]
      | succ j =>
          simp only [List.getD_cons_succ] at hi
          simp [List.eraseIdx, nonNan, List.filter_cons]
          have := ih j hi
          simp [nonNan] at this
          rw [this]

/-- Nothing compares above NaN on the left. -/
theorem F_le_ne_nan_left {x y : F} (h : F.le x y = true) : x ≠ F.nan := by
  cases x <;> simp_all [F.le]

/-- Nothing compares above NaN on the right. -/
theorem F_le_ne_nan_right {x y : F} (h : F.le x y = true) : y ≠ F.nan := by
  cases x <;> cases y <;> simp_all [F.le]

/-- Every number is below positive infinity. -/
theorem F_le_inf_right {x : F} (h : x ≠ F.nan) : F.le x F.inf = true := by
  cases x <;> simp_all [F.le]

/-- Only positive infinity sits above positive infinity. -/
theorem F_inf_le {y : F} (h : F.le F.inf y = true) : y = F.inf := by
  cases y <;> simp_all [F.le]

/-- Only negative infinity sits below negative infinity. -/
theorem F_le_ninf {x : F} (h : F.le x F.ninf = true) : x = F.ninf := by
  cases x <;> simp_all [F.le]

/-- Negative infinity is below every number. -/
theorem F_ninf_le {y : F} (h : y ≠ F.nan) : F.le F.ninf y = true := by
  cases y <;> simp_all [F.le]

/-- Raising a finite right-hand side preserves the IEEE order. -/
theorem F_le_fin_mono {lo : F} {p r : ℚ} (h : F.le lo (F.fin p) = true)
    (hpr : p ≤ r) : F.le lo (F.fin r) = true := by
  cases lo <;> simp_all [F.le]
  linarith

/-- Lowering a finite left-hand side preserves the IEEE order. -/
theorem F_fin_le_mono {hi : F} {p r : ℚ} (h : F.le (F.fin p) hi = true)
    (hrp : r ≤ p) : F.le (F.fin r) hi = true := by
  cases hi <;> simp_all [F.le]
  linarith

/-- The midpoint of two values bracketed between lo and hi stays between
lo and hi in the IEEE order, whenever it is a number at all. -/
theorem avg_between {lo a b hi : F} (hla : F.le lo a = true) (hlb : F.le lo b = true)
    (hat : F.le a hi = true) (hbt : F.le b hi = true)
    (hnn : F.div (F.add a b) (F.fin 2) ≠ F.nan) :
    F.le lo (F.div (F.add a b) (F.fin 2)) = true ∧
    F.le (F.div (F.add a b) (F.fin 2)) hi = true := by
  have h20 : ¬((2 : ℚ) = 0) := by norm_num
  have h2neg : ¬((2 : ℚ) < 0) := by norm_num
  cases a with
  | nan => exact absurd (F_le_ne_nan_right hla) (by simp)
  | fin p =>
      cases b with
      | nan => exact absurd (F_le_ne_nan_right hlb) (by simp)
      | fin q =>
          have hd : F.div (F.add (F.fin p) (F.fin q)) (F.fin 2) = F.fin ((p + q) / 2) := by
            simp [F.add, F.div, h20]
          rw [hd]
          constructor
          · rcases le_total p q with hpq | hqp
            · exact F_le_fin_mono hla (by linarith)
            · exact F_le_fin_mono hlb (by linarith)
          · rcases le_total p q with hpq | hqp
            · exact F_fin_le_mono hbt (by linarith)
            · exact F_fin_le_mono hat (by linarith)
      | inf =>
          have hd : F.div (F.add (F.fin p) F.inf) (F.fin 2) = F.inf := by
            simp [F.add, F.div, h2neg]
          rw [hd]
          rw [F_inf_le hbt] at hat ⊢
          exact ⟨F_le_inf_right (F_le_ne_nan_left hla), hat⟩
      | ninf =>
          have hd : F.div (F.add (F.fin p) F.ninf) (F.fin 2) = F.ninf := by
            simp [F.add, F.div, h2neg]
          rw [hd]
          rw [F_le_ninf hlb] at hla ⊢
          exact ⟨hla, F_ninf_le (F_le_ne_nan_right hat)⟩
  | inf =>
      cases b with
      | nan => exact absurd (F_le_ne_nan_right hlb) (by simp)
      | fin q =>
          have hd : F.div (F.add F.inf (F.fin q)) (F.fin 2) = F.inf := by
            simp [F.add, F.div, h2neg]
          rw [hd]
          rw [F_inf_le hat] at hbt ⊢
          exact ⟨F_le_inf_right (F_le_ne_nan_left hla), hbt⟩
      | inf =>
          have hd : F.div (F.add F.inf F.inf) (F.fin 2) = F.inf := by
            simp [F.add, F.div, h2neg]
          rw [hd]
          rw [F_inf_le hat]
          exact ⟨F_le_inf_right (F_le_ne_nan_left hla), by simp [F.le]⟩
      | ninf =>
          have hd : F.div (F.add F.inf F.ninf) (F.fin 2) = F.nan := by
            simp [F.add, F.div]
          exact absurd hd hnn
  | ninf =>
      cases b with
      | nan => exact absurd (F_le_ne_nan_right hlb) (by simp)
      | fin q =>
          have hd : F.div (F.add F.ninf (F.fin q)) (F.fin 2) = F.ninf := by
            simp [F.add, F.div, h2neg]
          rw [hd]
          rw [F_le_ninf hla] at hlb ⊢
          exact ⟨by simp [F.le], F_ninf_le (F_le_ne_nan_right hbt)⟩
      | inf =>
          have hd : F.div (F.add F.ninf F.inf) (F.fin 2) = F.nan := by
            simp [F.add, F.div]
          exact absurd hd hnn
      | ninf =>
          have hd : F.div (F.add F.ninf F.ninf) (F.fin 2) = F.ninf := by
            simp [F.add, F.div, h2neg]
          rw [hd]
          rw [F_le_ninf hla]
          exact ⟨by simp [F.le], F_ninf_le (F_le_ne_nan_right hbt)⟩

/-- The skipna median lies between the skipna min and max whenever the
column has a non-NaN value and the median itself is a number. -/
theorem nanmedianF_between {l : List F} (hne : nanminF l ≠ F.nan)
    (hmed : nanmedianF l ≠ F.nan) :
    F.le (nanminF l) (nanmedianF l) = true ∧
    F.le (nanmedianF l) (nanmaxF l) = true := by
  have hys : sortF (nonNan l) ≠ [] := by
    intro h0; apply hne; simp [nanminF, h0]
  have hlen : 0 < (sortF (nonNan l)).length := List.length_pos.mpr hys
  have hget : ∀ i, i < (sortF (nonNan l)).length →
      ((sortF (nonNan l)).getD i F.nan ∈ l ∧ (sortF (nonNan l)).getD i F.nan ≠ F.nan) := by
    intro i hi
    rw [List.getD_eq_getElem _ _ hi]
    exact mem_nonNan.mp (mem_sortF.mp (List.getElem_mem hi))
  have hlen0 : ¬((sortF (nonNan l)).length = 0) := by omega
  simp only [nanmedianF] at hmed ⊢
  rw [if_neg hlen0] at hmed ⊢
  by_cases hpar : (sortF (nonNan l)).length % 2 = 1
  · rw [if_pos hpar] at hmed ⊢
    have hi : (sortF (nonNan l)).length / 2 < (sortF (nonNan l)).length := by omega
    obtain ⟨hm, hn⟩ := hget _ hi
    exact ⟨(nanminF_spec hm hn).2.2, (nanmaxF_spec hm hn).2.2⟩
  · rw [if_neg hpar] at hmed ⊢
    have hi2 : (sortF (nonNan l)).length / 2 < (sortF (nonNan l)).length := by omega
    have hi1 : (sortF (nonNan l)).length / 2 - 1 < (sortF (nonNan l)).length := by omega
    obtain ⟨hm1, hn1⟩ := hget _ hi1
    obtain ⟨hm2, hn2⟩ := hget _ hi2
    exact avg_between (nanminF_spec hm1 hn1).2.2 (nanminF_spec hm2 hn2).2.2
      (nanmaxF_spec hm1 hn1).2.2 (nanmaxF_spec hm2 hn2).2.2 hmed

/-- A non-NaN min is attained in the list. -/
theorem nanminF_mem {l : List F} (h : nanminF l ≠ F.nan) : nanminF l ∈ l := by
  cases hs : sortF (nonNan l) with
  | nil => exact absurd (by simp [nanminF, hs]) h
  | cons c t =>
      have hc : nanminF l = c := by simp [nanminF, hs]
      rw [hc]
      exact (mem_nonNan.mp (mem_sortF.mp (hs ▸ List.mem_cons_self c t))).1

/-- A non-NaN max is attained in the list. -/
theorem nanmaxF_mem {l : List F} (h : nanmaxF l ≠ F.nan) : nanmaxF l ∈ l := by
  cases hs : (sortF (nonNan l)).getLast? with
  | none => exact absurd (by simp [nanmaxF, hs]) h
  | some y =>
      have hy : nanmaxF l = y := by simp [nanmaxF, hs]
      rw [hy]
      exact (mem_nonNan.mp (mem_sortF.mp (List.mem_of_getLast?_eq_some hs))).1

/-- Inverting a successful idxmin. -/
theorem idxminF_some {l : List F} {i : Nat} (h : idxminF l = some i) :
    nanminF l ≠ F.nan ∧ i = l.findIdx (fun x => decide (x = nanminF l)) := by
  unfold idxminF at h
  by_cases hm : nanminF l = F.nan
  · rw [if_pos hm] at h; cases h
  · rw [if_neg hm] at h
    exact ⟨hm, (Option.some.injEq _ _).mp h |>.symm⟩

/-- A successful idxmin lands in range on the minimum value. -/
theorem idxminF_spec {l : List F} {i : Nat} (h : idxminF l = some i) :
    i < l.length ∧ l.getD i F.nan = nanminF l := by
  obtain ⟨hm, rfl⟩ := idxminF_some h
  have hmem : nanminF l ∈ l := nanminF_mem hm
  have hs := @findIdx_spec (fun x => decide (x = nanminF l)) l (nanminF l) hmem
    (decide_eq_true rfl)
  exact ⟨hs.1, of_decide_eq_true hs.2⟩

/-- Inverting a successful idxmax. -/
theorem idxmaxF_some {l : List F} {i : Nat} (h : idxmaxF l = some i) :
    nanmaxF l ≠ F.nan ∧ i = l.findIdx (fun x => decide (x = nanmaxF l)) := by
  unfold idxmaxF at h
  by_cases hm : nanmaxF l = F.nan
  · rw [if_pos hm] at h; cases h
  · rw [if_neg hm] at h
    exact ⟨hm, (Option.some.injEq _ _).mp h |>.symm⟩

/-- A successful idxmax lands in range on the maximum value. -/
theorem idxmaxF_spec {l : List F} {i : Nat} (h : idxmaxF l = some i) :
    i < l.length ∧ l.getD i F.nan = nanmaxF l := by
  obtain ⟨hm, rfl⟩ := idxmaxF_some h
  have hmem : nanmaxF l ∈ l := nanmaxF_mem hm
  have hs := @findIdx_spec (fun x => decide (x = nanmaxF l)) l (nanmaxF l) hmem
    (decide_eq_true rfl)
  exact ⟨hs.1, of_decide_eq_true hs.2⟩

/-- One pct entry per country. -/
theorem pctList_length (t : RawTable) : (pctList t).length = t.countries.length := by
  simp [pctList, countryResults]

/-- The pct column entry at a country index. -/
theorem pctList_getD (t : RawTable) (i : Nat) (hi : i < t.countries.length) :
    (pctList t).getD i F.nan =
      (mkCountryResult (colVals (preCovid (cleanTable t)) i)
        (colVals (duringCovid (cleanTable t)) i)
        (colVals (postCovid (cleanTable t)) i)).pct_change_during_covid := by
  have h : i < (pctList t).length := by rw [pctList_length]; exact hi
  rw [List.getD_eq_getElem _ _ h]
  simp [pctList, countryResults]

/-- The results entry at a country index. -/
theorem countryResults_getD (t : RawTable) (i : Nat) (hi : i < t.countries.length) :
    (countryResults t).getD i ("", default) =
      (t.countries.getD i (""),
       mkCountryResult (colVals (preCovid (cleanTable t)) i)
         (colVals (duringCovid (cleanTable t)) i)
         (colVals (postCovid (cleanTable t)) i)) := by
  have h : i < (countryResults t).length := by
    simpa [countryResults] using hi
  rw [List.getD_eq_getElem _ _ h]
  simp [countryResults]

/-- Inverting a successful analysis into its recorded fields. -/
theorem analyze_df_ok_inv {t : RawTable} {out : Output} (h : analyze_df t = .ok out) :
    ∃ imin imax, idxminF (pctList t) = some imin ∧ idxmaxF (pctList t) = some imax ∧
      out.results = countryResults t ∧
      out.mean_pct_change = nanmeanF (pctList t) ∧
      out.median_pct_change = nanmedianF (pctList t) ∧
      out.most_impacted_country = t.countries.getD imin ("") ∧
      out.most_impacted_value = nanminF (pctList t) ∧
      out.least_impacted_country = t.countries.getD imax ("") ∧
      out.least_impacted_value = nanmaxF (pctList t) ∧
      out.t_sample_pre = tSample (preCovid (cleanTable t)) ∧
      out.t_sample_during = tSample (duringCovid (cleanTable t)) := by
  unfold analyze_df at h
  cases h1 : idxminF (pctList t) with
  | none => rw [h1] at h; cases h
  | some imin =>
      cases h2 : idxmaxF (pctList t) with
      | none => rw [h1, h2] at h; cases h
      | some imax =>
          rw [h1, h2] at h
          obtain rfl := ((Except.ok.injEq _ _).mp h).symm
          exact ⟨imin, imax, rfl, rfl, rfl, rfl, rfl, rfl, rfl, rfl, rfl, rfl, rfl⟩

/-- A small well-behaved concrete table for instantiations: Date column
plus two countries, rows in years 2018, 2020 and 2023. -/
def sampleTable : RawTable :=
  ⟨["A", "B"],
   [⟨2018, [PyValue.pfloat (F.fin 4), PyValue.pfloat (F.fin 2)]⟩,
    ⟨2020, [PyValue.pfloat (F.fin 5), PyValue.pfloat (F.fin 3)]⟩,
    ⟨2023, [PyValue.pfloat (F.fin 6), PyValue.pfloat (F.fin 4)]⟩]⟩

/-- A filesystem holding the sample table under the scripted file name. -/
def sampleFs : String → Option RawTable :=
  fun p => if p = "fig_4.2.13.csv" then some sampleTable else none

/-- The successful output of the analysis on the sample table. -/
def sampleOut : Output := ((analyze_df sampleTable).toOption).getD default

/-- A filesystem with no files at all. -/
def emptyFs : String → Option RawTable := fun _ => none

/-- Concrete rows for the period-grouping instantiation. -/
def rowsW : List CleanRow := [⟨2018, [F.fin 1]⟩, ⟨2020, [F.fin 2]⟩]

/-- C2: rows are grouped into the three pre-defined calendar periods by
the year of their Date value: pre-COVID is exactly the rows with year 2018
or 2019, during-COVID exactly those with year 2020, 2021 or 2022,
post-COVID exactly those with year 2023, and the three periods are
pairwise disjoint. -/
theorem periods_partition_by_year (rows : List CleanRow) (r : CleanRow) :
    (r ∈ preCovid rows ↔ r ∈ rows ∧ (r.year = 2018 ∨ r.year = 2019)) ∧
    (r ∈ duringCovid rows ↔ r ∈ rows ∧ (r.year = 2020 ∨ r.year = 2021 ∨ r.year = 2022)) ∧
    (r ∈ postCovid rows ↔ r ∈ rows ∧ r.year = 2023) ∧
    ¬(r ∈ preCovid rows ∧ r ∈ duringCovid rows) ∧
    ¬(r ∈ preCovid rows ∧ r ∈ postCovid rows) ∧
    ¬(r ∈ duringCovid rows ∧ r ∈ postCovid rows) := by
  have hpre : r ∈ preCovid rows ↔ r ∈ rows ∧ (r.year = 2018 ∨ r.year = 2019) := by
    simp [preCovid, List.mem_filter]
  have hdur : r ∈ duringCovid rows ↔
      r ∈ rows ∧ (r.year = 2020 ∨ r.year = 2021 ∨ r.year = 2022) := by
    simp [duringCovid, List.mem_filter]
  have hpost : r ∈ postCovid rows ↔ r ∈ rows ∧ r.year = 2023 := by
    simp [postCovid, List.mem_filter]
  refine ⟨hpre, hdur, hpost, ?_, ?_, ?_⟩
  · rintro ⟨h1, h2⟩
    have a1 := (hpre.mp h1).2
    have a2 := (hdur.mp h2).2
    omega
  · rintro ⟨h1, h2⟩
    have a1 := (hpre.mp h1).2
    have a2 := (hpost.mp h2).2
    omega
  · rintro ⟨h1, h2⟩
    have a1 := (hdur.mp h1).2
    have a2 := (hpost.mp h2).2
    omega

/-- Concrete instantiation of the period grouping: a 2018 row is in the
pre-COVID slice and not in the during-COVID slice. -/
theorem periods_partition_by_year_witness :
    (⟨2018, [F.fin 1]⟩ : CleanRow) ∈ preCovid rowsW ∧
    ¬((⟨2018, [F.fin 1]⟩ : CleanRow) ∈ preCovid rowsW ∧
      (⟨2018, [F.fin 1]⟩ : CleanRow) ∈ duringCovid rowsW) :=
  ⟨(periods_partition_by_year rowsW ⟨2018, [F.fin 1]⟩).1.mpr ⟨by decide, by decide⟩,
   (periods_partition_by_year rowsW ⟨2018, [F.fin 1]⟩).2.2.2.1⟩

/-- C4: analyze_covid_impact never raises to its caller: the broad except
maps every body error, the missing-file FileNotFoundError included, to the
returned pair None, None, and passes successes through unchanged. -/
theorem broad_except_returns_none (fs : String → Option RawTable) (fp : String) :
    (∀ e, analyze_body fs fp = .error e → analyze_covid_impact fs fp = none) ∧
    (fs fp = none → analyze_covid_impact fs fp = none) ∧
    (∀ out, analyze_body fs fp = .ok out → analyze_covid_impact fs fp = some out) := by
  refine ⟨?_, ?_, ?_⟩
  · intro e he; simp [analyze_covid_impact, he]
  · intro hfs
    have hb : analyze_body fs fp = .error ("The file " ++ fp ++ " was not found") := by
      simp [analyze_body, hfs]
    simp [analyze_covid_impact, hb]
  · intro out ho; simp [analyze_covid_impact, ho]

/-- Concrete instantiation: on a filesystem without the file the function
returns the None pair. -/
theorem broad_except_returns_none_witness :
    analyze_covid_impact emptyFs ("fig_4.2.13.csv") = none :=
  (broad_except_returns_none emptyFs ("fig_4.2.13.csv")).2.1 rfl

/-- C5: clean_percentage is total and never raises: a string containing a
percent sign is parsed after every percent sign is removed, every other
value goes through the plain float conversion, a failed conversion gives
NaN, and during loading the cleaner is applied to every column except
Date, whose parsed year is carried over unchanged. -/
theorem clean_percentage_total_spec (s : String) (x : F) (t : RawTable)
    (j : Nat) (hj : j < t.rows.length) :
    (s.contains '%' = true →
        clean_percentage (.pstr s) = (parseFloat (stripPct s)).elim F.nan F.fin) ∧
    (s.contains '%' = false →
        clean_percentage (.pstr s) = (parseFloat s).elim F.nan F.fin) ∧
    (s.contains '%' = true → parseFloat (stripPct s) = none →
        clean_percentage (.pstr s) = F.nan) ∧
    (s.contains '%' = false → parseFloat s = none →
        clean_percentage (.pstr s) = F.nan) ∧
    (clean_percentage (.pfloat x) = x) ∧
    ((cleanTable t).getD j ⟨0, []⟩ =
      ⟨(t.rows.getD j ⟨0, []⟩).dateYear,
       (t.rows.getD j ⟨0, []⟩).vals.map clean_percentage⟩) := by
  refine ⟨?_, ?_, ?_, ?_, ?_, ?_⟩
  · intro h
    cases hp : parseFloat (stripPct s) <;> simp [clean_percentage, h, pyFloat, hp]
  · intro h
    cases hp : parseFloat s <;> simp [clean_percentage, h, pyFloat, hp]
  · intro h hp; simp [clean_percentage, h, pyFloat, hp]
  · intro h hp; simp [clean_percentage, h, pyFloat, hp]
  · simp [clean_percentage, pyFloat]
  · have h1 : j < (cleanTable t).length := by simpa [cleanTable] using hj
    rw [List.getD_eq_getElem _ _ h1, List.getD_eq_getElem _ _ hj]
    simp [cleanTable, cleanRow]

/-- Concrete instantiation of the cleaner: a percent string is parsed with
the sign stripped and a float passes through. -/
theorem clean_percentage_total_spec_witness :
    clean_percentage (.pstr ("12.5%")) =
      (parseFloat (stripPct ("12.5%"))).elim F.nan F.fin ∧
    clean_percentage (.pfloat F.inf) = F.inf :=
  ⟨(clean_percentage_total_spec ("12.5%") F.inf sampleTable 0 (by decide)).1
     (by with_unfolding_all decide),
   (clean_percentage_total_spec ("12.5%") F.inf sampleTable 0 (by decide)).2.2.2.2.1⟩

/-- C7: every run works through the fixed order load, clean, aggregate,
test, plot, print: the completed-stage trace is always a duplicate-free
prefix of that order, no stage is repeated or retried, and a run whose
analysis succeeds completes all six stages exactly once in that order. -/
theorem linear_pipeline_stages (fs : String → Option RawTable) (fp : String) :
    (∃ rest, main_stages fs fp ++ rest = stageOrder) ∧
    (∀ s, (main_stages fs fp).count s ≤ 1) ∧
    (∀ out, analyze_covid_impact fs fp = some out → main_stages fs fp = stageOrder) := by
  cases hfs : fs fp with
  | none =>
      have h1 : analyze_stages fs fp = [] := by simp [analyze_stages, hfs]
      have h2 : analyze_covid_impact fs fp = none := by
        simp [analyze_covid_impact, analyze_body, hfs]
      have h3 : main_stages fs fp = [] := by
        simp [main_stages, h1, h2, create_visualizations]
      rw [h3]
      refine ⟨⟨stageOrder, rfl⟩, ?_, ?_⟩
      · intro s; simp
      · intro out hout; rw [h2] at hout; cases hout
  | some t =>
      cases hdf : analyze_df t with
      | ok o =>
          have h2 : analyze_covid_impact fs fp = some o := by
            simp [analyze_covid_impact, analyze_body, hfs, hdf]
          have h1 : analyze_stages fs fp = [.load, .clean, .aggregate, .test] := by
            simp [analyze_stages, hfs, hdf]
          have h3 : main_stages fs fp = stageOrder := by
            simp [main_stages, h1, h2, create_visualizations, stageOrder]
          rw [h3]
          refine ⟨⟨[], by simp⟩, ?_, fun _ _ => rfl⟩
          intro s; cases s <;> decide
      | error e =>
          have h2 : analyze_covid_impact fs fp = none := by
            simp [analyze_covid_impact, analyze_body, hfs, hdf]
          have h1 : analyze_stages fs fp = [.load, .clean] := by
            simp [analyze_stages, hfs, hdf]
          have h3 : main_stages fs fp = [.load, .clean] := by
            simp [main_stages, h1, h2, create_visualizations]
          rw [h3]
          refine ⟨⟨[.aggregate, .test, .plot, .report], rfl⟩, ?_, ?_⟩
          · intro s; cases s <;> decide
          · intro out hout; rw [h2] at hout; cases hout

set_option maxRecDepth 8000 in
/-- Concrete instantiation: on the sample table the run completes all six
stages in the fixed order. -/
theorem linear_pipeline_stages_witness :
    main_stages sampleFs ("fig_4.2.13.csv") = stageOrder :=
  (linear_pipeline_stages sampleFs ("fig_4.2.13.csv")).2.2 sampleOut
    (by with_unfolding_all decide)

/-- C8: print_results guards against the None pair and prints nothing, but
create_visualizations has no such guard: the main script still calls it on
the None results and the run dies there with an AttributeError instead of
ending cleanly. -/
theorem none_guard_asymmetry (fs : String → Option RawTable) (fp : String)
    (h : analyze_covid_impact fs fp = none) :
    print_results (analyze_covid_impact fs fp) = [] ∧
    create_visualizations (analyze_covid_impact fs fp) =
      .error ("AttributeError: NoneType object has no attribute sort_values") ∧
    main_run fs fp =
      .error ("AttributeError: NoneType object has no attribute sort_values") := by
  refine ⟨?_, ?_, ?_⟩ <;> simp [print_results, create_visualizations, main_run, h]

/-- Concrete instantiation: a run on a missing file dies inside
create_visualizations. -/
theorem none_guard_asymmetry_witness :
    main_run emptyFs ("fig_4.2.13.csv") =
      .error ("AttributeError: NoneType object has no attribute sort_values") :=
  (none_guard_asymmetry emptyFs ("fig_4.2.13.csv") rfl).2.2

/-- The isin filter of line 44 phrased with an explicit disjunction. -/
theorem preCovid_filter_eq (rows : List CleanRow) :
    preCovid rows = rows.filter (fun r => decide (r.year = 2018 ∨ r.year = 2019)) := by
  unfold preCovid
  apply List.filter_congr
  intro x _
  simp

/-- The isin filter of line 46 phrased with an explicit disjunction. -/
theorem duringCovid_filter_eq (rows : List CleanRow) :
    duringCovid rows =
      rows.filter (fun r => decide (r.year = 2020 ∨ r.year = 2021 ∨ r.year = 2022)) := by
  unfold duringCovid
  apply List.filter_congr
  intro x _
  simp

/-- Extracting a successful analysis from the caller-facing function. -/
theorem analyze_covid_impact_some {fs : String → Option RawTable} {fp : String}
    {t : RawTable} {out : Output} (hfs : fs fp = some t)
    (h : analyze_covid_impact fs fp = some out) : analyze_df t = .ok out := by
  unfold analyze_covid_impact analyze_body at h
  rw [hfs] at h
  dsimp only at h
  cases hdf : analyze_df t with
  | ok o =>
      rw [hdf] at h
      simp at h
      exact congrArg Except.ok h
  | error e =>
      rw [hdf] at h
      simp at h

/-- The period mean as the code computes it equals the spec phrasing. -/
theorem specPreMean_eq (t : RawTable) (i : Nat) :
    nanmeanF (colVals (preCovid (cleanTable t)) i) = specPreMean t i := by
  unfold specPreMean colVals
  rw [preCovid_filter_eq]

/-- The during-period mean as the code computes it equals the spec
phrasing. -/
theorem specDuringMean_eq (t : RawTable) (i : Nat) :
    nanmeanF (colVals (duringCovid (cleanTable t)) i) = specDuringMean t i := by
  unfold specDuringMean colVals
  rw [duringCovid_filter_eq]

/-- The post-period mean as the code computes it equals the spec
phrasing. -/
theorem specPostMean_eq (t : RawTable) (i : Nat) :
    nanmeanF (colVals (postCovid (cleanTable t)) i) = specPostMean t i := by
  unfold specPostMean colVals postCovid
  rfl

/-- C1: for every country column the analysis records the three unmodified
period means, and the percentage change ((during mean - pre mean) / pre
mean) * 100 with the pre mean over the rows of years 2018-2019 and the
during mean over the rows of years 2020-2022. -/
theorem country_stats_formulas (fs : String → Option RawTable) (fp : String)
    (t : RawTable) (out : Output) (hfs : fs fp = some t)
    (hok : analyze_covid_impact fs fp = some out)
    (i : Nat) (hi : i < t.countries.length) :
    out.results.getD i ("", default) =
      (t.countries.getD i (""),
       { pre_covid_mean := specPreMean t i
         during_covid_mean := specDuringMean t i
         post_covid_mean := specPostMean t i
         pct_change_during_covid :=
           F.mul (F.div (F.sub (specDuringMean t i) (specPreMean t i))
             (specPreMean t i)) (F.fin 100) }) := by
  have hdf := analyze_covid_impact_some hfs hok
  obtain ⟨imin, imax, h1, h2, hres, -, -, -, -, -, -, -, -⟩ := analyze_df_ok_inv hdf
  rw [hres, countryResults_getD t i hi]
  simp only [mkCountryResult]
  rw [specPreMean_eq, specDuringMean_eq, specPostMean_eq]

set_option maxRecDepth 8000 in
/-- Concrete instantiation of the per-country formulas on the sample
table. -/
theorem country_stats_formulas_witness :
    sampleOut.results.getD 0 ("", default) =
      (sampleTable.countries.getD 0 (""),
       { pre_covid_mean := specPreMean sampleTable 0
         during_covid_mean := specDuringMean sampleTable 0
         post_covid_mean := specPostMean sampleTable 0
         pct_change_during_covid :=
           F.mul (F.div (F.sub (specDuringMean sampleTable 0) (specPreMean sampleTable 0))
             (specPreMean sampleTable 0)) (F.fin 100) }) :=
  country_stats_formulas sampleFs ("fig_4.2.13.csv") sampleTable sampleOut
    (by with_unfolding_all rfl) (by with_unfolding_all decide) 0 (by decide)

/-- The iloc 1:-1 slice of a widened row is exactly its country cells. -/
theorem ilocMid_fullRow (r : CleanRow) :
    ilocMid (fullRowCells r) = r.vals.map Cell.val := by
  simp [ilocMid, fullRowCells]

/-- The flattened slice of a row set is the pooled country values. -/
theorem tSample_eq (rows : List CleanRow) :
    tSample rows = (rows.map (fun r => r.vals.map Cell.val)).flatten := by
  simp [tSample, ilocMid_fullRow]

/-- C3: the two t-test samples are exactly the pooled cleaned country
values of the pre-COVID rows and of the during-COVID rows respectively,
and no Date cell and no Year cell enters either sample. -/
theorem ttest_samples_pooled (fs : String → Option RawTable) (fp : String)
    (t : RawTable) (out : Output) (hfs : fs fp = some t)
    (hok : analyze_covid_impact fs fp = some out) :
    out.t_sample_pre =
      (((cleanTable t).filter (fun r => decide (r.year = 2018 ∨ r.year = 2019))).map
        (fun r => r.vals.map Cell.val)).flatten ∧
    out.t_sample_during =
      (((cleanTable t).filter
          (fun r => decide (r.year = 2020 ∨ r.year = 2021 ∨ r.year = 2022))).map
        (fun r => r.vals.map Cell.val)).flatten ∧
    (∀ c ∈ out.t_sample_pre, ∀ y : Int, c ≠ Cell.date y ∧ c ≠ Cell.year y) ∧
    (∀ c ∈ out.t_sample_during, ∀ y : Int, c ≠ Cell.date y ∧ c ≠ Cell.year y) := by
  have hdf := analyze_covid_impact_some hfs hok
  obtain ⟨imin, imax, h1, h2, -, -, -, -, -, -, -, hpre, hdur⟩ := analyze_df_ok_inv hdf
  have hvalshape : ∀ (rows : List CleanRow) (c : Cell),
      c ∈ tSample rows → ∀ y : Int, c ≠ Cell.date y ∧ c ≠ Cell.year y := by
    intro rows c hc y
    rw [tSample_eq] at hc
    rcases List.mem_flatten.mp hc with ⟨l, hl, hcl⟩
    rcases List.mem_map.mp hl with ⟨r2, -, rfl⟩
    rcases List.mem_map.mp hcl with ⟨x, -, rfl⟩
    constructor <;> simp
  refine ⟨?_, ?_, ?_, ?_⟩
  · rw [hpre, tSample_eq, preCovid_filter_eq]
  · rw [hdur, tSample_eq, duringCovid_filter_eq]
  · intro c hc y
    rw [hpre] at hc
    exact hvalshape _ c hc y
  · intro c hc y
    rw [hdur] at hc
    exact hvalshape _ c hc y

set_option maxRecDepth 8000 in
/-- Concrete instantiation of the t-test samples on the sample table. -/
theorem ttest_samples_pooled_witness :
    sampleOut.t_sample_pre =
      (((cleanTable sampleTable).filter
          (fun r => decide (r.year = 2018 ∨ r.year = 2019))).map
        (fun r => r.vals.map Cell.val)).flatten :=
  (ttest_samples_pooled sampleFs ("fig_4.2.13.csv") sampleTable sampleOut
    (by with_unfolding_all rfl) (by with_unfolding_all decide)).1

/-- Removing an element the filter rejects does not change the filter. -/
theorem filter_out_mid (p : CleanRow → Bool) (A B : List CleanRow) (x : CleanRow)
    (hx : p x = false) : (A ++ x :: B).filter p = (A ++ B).filter p := by
  simp [List.filter_append, List.filter_cons, hx]

/-- C10: a row whose Date year lies outside 2018-2023 belongs to none of
the three periods, and inserting such a row anywhere in the table leaves
the whole analysis output unchanged: it contributes to no per-country
mean, no percentage change and neither t-test sample. -/
theorem out_of_range_rows_ignored (cs : List String) (rs1 rs2 : List RawRow)
    (r : RawRow)
    (h : ¬(r.dateYear = 2018 ∨ r.dateYear = 2019 ∨ r.dateYear = 2020 ∨
           r.dateYear = 2021 ∨ r.dateYear = 2022 ∨ r.dateYear = 2023)) :
    cleanRow r ∉ preCovid (cleanTable ⟨cs, rs1 ++ r :: rs2⟩) ∧
    cleanRow r ∉ duringCovid (cleanTable ⟨cs, rs1 ++ r :: rs2⟩) ∧
    cleanRow r ∉ postCovid (cleanTable ⟨cs, rs1 ++ r :: rs2⟩) ∧
    analyze_df ⟨cs, rs1 ++ r :: rs2⟩ = analyze_df ⟨cs, rs1 ++ rs2⟩ := by
  have hy : (cleanRow r).year = r.dateYear := rfl
  have hsplit1 : (cleanTable ⟨cs, rs1 ++ r :: rs2⟩ : List CleanRow) =
      rs1.map cleanRow ++ cleanRow r :: rs2.map cleanRow := by
    simp [cleanTable]
  have hsplit2 : (cleanTable ⟨cs, rs1 ++ rs2⟩ : List CleanRow) =
      rs1.map cleanRow ++ rs2.map cleanRow := by
    simp [cleanTable]
  have hpre : preCovid (cleanTable ⟨cs, rs1 ++ r :: rs2⟩) =
      preCovid (cleanTable ⟨cs, rs1 ++ rs2⟩) := by
    unfold preCovid
    rw [hsplit1, hsplit2]
    apply filter_out_mid
    rw [decide_eq_false_iff_not]
    simp only [hy, List.mem_cons, List.not_mem_nil, or_false]
    omega
  have hdur : duringCovid (cleanTable ⟨cs, rs1 ++ r :: rs2⟩) =
      duringCovid (cleanTable ⟨cs, rs1 ++ rs2⟩) := by
    unfold duringCovid
    rw [hsplit1, hsplit2]
    apply filter_out_mid
    rw [decide_eq_false_iff_not]
    simp only [hy, List.mem_cons, List.not_mem_nil, or_false]
    omega
  have hpost : postCovid (cleanTable ⟨cs, rs1 ++ r :: rs2⟩) =
      postCovid (cleanTable ⟨cs, rs1 ++ rs2⟩) := by
    unfold postCovid
    rw [hsplit1, hsplit2]
    apply filter_out_mid
    rw [decide_eq_false_iff_not]
    rw [hy]
    omega
  have hcr : countryResults ⟨cs, rs1 ++ r :: rs2⟩ = countryResults ⟨cs, rs1 ++ rs2⟩ := by
    unfold countryResults
    dsimp only
    rw [hpre, hdur, hpost]
  have hpct : pctList ⟨cs, rs1 ++ r :: rs2⟩ = pctList ⟨cs, rs1 ++ rs2⟩ := by
    unfold pctList
    rw [hcr]
  refine ⟨?_, ?_, ?_, ?_⟩
  · intro hmem
    have hyr := ((periods_partition_by_year _ _).1.mp hmem).2
    rw [hy] at hyr
    omega
  · intro hmem
    have hyr := ((periods_partition_by_year _ _).2.1.mp hmem).2
    rw [hy] at hyr
    omega
  · intro hmem
    have hyr := ((periods_partition_by_year _ _).2.2.1.mp hmem).2
    rw [hy] at hyr
    omega
  · unfold analyze_df
    rw [hpct, hcr, hpre, hdur]

/-- A row in year 2025, outside every period. -/
def outlierRow : RawRow := ⟨2025, [PyValue.pfloat (F.fin 50)]⟩

/-- Concrete instantiation: inserting the 2025 row changes nothing. -/
theorem out_of_range_rows_ignored_witness :
    analyze_df ⟨["A"], [⟨2018, [PyValue.pfloat (F.fin 1)]⟩] ++ outlierRow ::
        [⟨2020, [PyValue.pfloat (F.fin 2)]⟩]⟩ =
      analyze_df ⟨["A"], [⟨2018, [PyValue.pfloat (F.fin 1)]⟩] ++
        [⟨2020, [PyValue.pfloat (F.fin 2)]⟩]⟩ :=
  (out_of_range_rows_ignored ["A"] [⟨2018, [PyValue.pfloat (F.fin 1)]⟩]
    [⟨2020, [PyValue.pfloat (F.fin 2)]⟩] outlierRow (by decide)).2.2.2

/-- A table with opposite infinite percentage changes: both pre-COVID
means are zero, the during-COVID means are -5 and 5. -/
def straddleTable : RawTable :=
  ⟨["A", "B"],
   [⟨2018, [PyValue.pfloat (F.fin 0), PyValue.pfloat (F.fin 0)]⟩,
    ⟨2020, [PyValue.pfloat (F.fin (-5)), PyValue.pfloat (F.fin 5)]⟩]⟩

/-- The successful output on straddleTable. -/
def straddleOut : Output := ((analyze_df straddleTable).toOption).getD default

/-- C6 counterexample: on straddleTable the analysis succeeds on a
non-empty set of countries, most_impacted_value is -inf (the true minimum
of the pct column) and least_impacted_value is +inf, but the median of
the two opposite infinities is NaN, so the claimed chain
most_impacted_value <= median_pct_change <= least_impacted_value is false
in the IEEE order on both sides. -/
theorem most_median_least_counterexample :
    analyze_df straddleTable = .ok straddleOut ∧
    straddleOut.most_impacted_value = F.ninf ∧
    straddleOut.least_impacted_value = F.inf ∧
    straddleOut.median_pct_change = F.nan ∧
    F.le straddleOut.most_impacted_value straddleOut.median_pct_change = false ∧
    F.le straddleOut.median_pct_change straddleOut.least_impacted_value = false := by
  with_unfolding_all decide

/-- C6 amended: most_impacted is the argmin of the pct column and
least_impacted the argmax (NaN entries skipped, as pandas does), the two
recorded values bound every non-NaN pct value, and the chain
most <= median <= least holds whenever the median is itself a number;
when two opposite infinities straddle the middle the median is NaN and
the chain fails, as the counterexample shows. -/
theorem extremes_and_median (t : RawTable) (out : Output)
    (hok : analyze_df t = .ok out) :
    (∃ i, i < t.countries.length ∧ out.most_impacted_country = t.countries.getD i ("") ∧
       (pctList t).getD i F.nan = out.most_impacted_value) ∧
    (∃ j, j < t.countries.length ∧ out.least_impacted_country = t.countries.getD j ("") ∧
       (pctList t).getD j F.nan = out.least_impacted_value) ∧
    (∀ x ∈ pctList t, x ≠ F.nan →
       F.le out.most_impacted_value x = true ∧ F.le x out.least_impacted_value = true) ∧
    (out.median_pct_change ≠ F.nan →
       F.le out.most_impacted_value out.median_pct_change = true ∧
       F.le out.median_pct_change out.least_impacted_value = true) := by
  obtain ⟨imin, imax, h1, h2, -, -, hmed, hmc, hmv, hlc, hlv, -, -⟩ := analyze_df_ok_inv hok
  obtain ⟨hminlt, hminval⟩ := idxminF_spec h1
  obtain ⟨hmaxlt, hmaxval⟩ := idxmaxF_spec h2
  have hlen := pctList_length t
  refine ⟨⟨imin, by omega, hmc, by rw [hminval, hmv]⟩,
          ⟨imax, by omega, hlc, by rw [hmaxval, hlv]⟩, ?_, ?_⟩
  · intro x hx hnx
    rw [hmv, hlv]
    exact ⟨(nanminF_spec hx hnx).2.2, (nanmaxF_spec hx hnx).2.2⟩
  · intro hmednn
    rw [hmed] at hmednn ⊢
    rw [hmv, hlv]
    exact nanmedianF_between (idxminF_some h1).1 hmednn

set_option maxRecDepth 8000 in
/-- Concrete instantiation of the amended extremes claim on the sample
table, where the median is a number. -/
theorem extremes_and_median_witness :
    F.le sampleOut.most_impacted_value sampleOut.median_pct_change = true ∧
    F.le sampleOut.median_pct_change sampleOut.least_impacted_value = true :=
  (extremes_and_median sampleTable sampleOut (by with_unfolding_all decide)).2.2.2
    (by with_unfolding_all decide)

/-- A non-finite value stays non-finite after the final times-100. -/
theorem F_mul_hundred_not_fin {a : F} (h : ∀ r : ℚ, a ≠ F.fin r) (q : ℚ) :
    F.mul a (F.fin 100) ≠ F.fin q := by
  have h1 : ¬((100 : ℚ) = 0) := by norm_num
  have h2 : (0 : ℚ) < 100 := by norm_num
  cases a with
  | fin r => exact absurd rfl (h r)
  | inf => simp [F.mul, h1, h2]
  | ninf => simp [F.mul, h1, h2]
  | nan => simp [F.mul]

/-- Division of anything minus zero by zero is never finite. -/
theorem F_div_zero_not_fin (d : F) :
    ∀ r : ℚ, F.div (F.sub d (F.fin 0)) (F.fin 0) ≠ F.fin r := by
  intro r
  cases d <;> simp [F.sub, F.neg, F.add, F.div] <;> split_ifs <;> simp

/-- A NaN pre-COVID mean makes the whole pct formula NaN. -/
theorem F_pct_nan (d : F) :
    F.mul (F.div (F.sub d F.nan) F.nan) (F.fin 100) = F.nan := by
  cases d <;> simp [F.sub, F.neg, F.add, F.div, F.mul]

/-- A table whose first country has no parseable pre-COVID value, so its
pre mean and pct change are NaN; the second country has pct change 50. -/
def nanPreTable : RawTable :=
  ⟨["A", "B"],
   [⟨2018, [PyValue.pstr "abc", PyValue.pfloat (F.fin 2)]⟩,
    ⟨2020, [PyValue.pfloat (F.fin 3), PyValue.pfloat (F.fin 3)]⟩]⟩

/-- The successful output on nanPreTable. -/
def nanPreOut : Output := ((analyze_df nanPreTable).toOption).getD default

/-- C9 counterexample: country A has a NaN pre-COVID mean (no parseable
pre-COVID value) and hence a NaN, non-finite pct change, yet every global
metric comes out as the finite value of country B alone, and in
particular the mean is not NaN: the non-finite value did not flow into
the global mean, median, min, max or argmin/argmax, because every one of
those pandas aggregations skips NaN. -/
theorem nan_pct_skipped_counterexample :
    analyze_df nanPreTable = .ok nanPreOut ∧
    (nanPreOut.results.getD 0 ("", default)).2.pre_covid_mean = F.nan ∧
    (nanPreOut.results.getD 0 ("", default)).2.pct_change_during_covid = F.nan ∧
    nanPreOut.mean_pct_change = F.fin 50 ∧
    nanPreOut.median_pct_change = F.fin 50 ∧
    nanPreOut.most_impacted_value = F.fin 50 ∧
    nanPreOut.least_impacted_value = F.fin 50 ∧
    nanPreOut.most_impacted_country = "B" ∧
    nanPreOut.least_impacted_country = "B" ∧
    nanPreOut.mean_pct_change ≠ F.nan := by
  with_unfolding_all decide

/-- C9 amended: the percentage-change division has no zero guard.  A zero
or NaN pre-COVID mean makes pct_change_during_covid non-finite.  An
infinite pct change does flow unguarded into the global aggregates: it
becomes the recorded least_impacted_value and drives the global mean to
infinity or NaN.  A NaN pct change, however, is skipped by every skipna
aggregation: the global mean, median, min and max are exactly those of
the pct column with that entry removed. -/
theorem zero_pre_mean_unguarded (preCol durCol postCol : List F) (t : RawTable)
    (i : Nat) (out : Output) :
    ((nanmeanF preCol = F.fin 0 ∨ nanmeanF preCol = F.nan) →
      ∀ q : ℚ, (mkCountryResult preCol durCol postCol).pct_change_during_covid ≠ F.fin q) ∧
    (analyze_df t = .ok out → F.inf ∈ pctList t →
      out.least_impacted_value = F.inf ∧
      (out.mean_pct_change = F.inf ∨ out.mean_pct_change = F.nan)) ∧
    ((pctList t).getD i F.nan = F.nan →
      nanmeanF ((pctList t).eraseIdx i) = nanmeanF (pctList t) ∧
      nanmedianF ((pctList t).eraseIdx i) = nanmedianF (pctList t) ∧
      nanminF ((pctList t).eraseIdx i) = nanminF (pctList t) ∧
      nanmaxF ((pctList t).eraseIdx i) = nanmaxF (pctList t)) := by
  refine ⟨?_, ?_, ?_⟩
  · intro h q
    simp only [mkCountryResult]
    rcases h with h | h <;> rw [h]
    · exact F_mul_hundred_not_fin (F_div_zero_not_fin (nanmeanF durCol)) q
    · rw [F_pct_nan]
      simp
  · intro hok hinf
    obtain ⟨imin, imax, h1, h2, -, hmean, -, -, -, -, hlv, -, -⟩ := analyze_df_ok_inv hok
    exact ⟨by rw [hlv]; exact nanmaxF_inf hinf, by rw [hmean]; exact nanmeanF_inf hinf⟩
  · intro hnan
    have he := nonNan_eraseIdx (pctList t) i hnan
    exact ⟨by simp only [nanmeanF, he], by simp only [nanmedianF, he],
           by simp only [nanminF, he], by simp only [nanmaxF, he]⟩

/-- Concrete instantiation of the amended no-zero-guard claim: a zero pre
mean with during mean 5 gives a non-finite pct change, and on
straddleTable the infinite pct change becomes the recorded
least_impacted_value. -/
theorem zero_pre_mean_unguarded_witness :
    (mkCountryResult [F.fin 0] [F.fin 5] []).pct_change_during_covid ≠ F.fin 0 ∧
    straddleOut.least_impacted_value = F.inf :=
  ⟨(zero_pre_mean_unguarded [F.fin 0] [F.fin 5] [] straddleTable 0 straddleOut).1
     (Or.inl (by with_unfolding_all decide)) 0,
   ((zero_pre_mean_unguarded [F.fin 0] [F.fin 5] [] straddleTable 0 straddleOut).2.1
     (by with_unfolding_all decide) (by with_unfolding_all decide)).1⟩
